import Mathlib

/-!
# Verification of the Tieba-Manager signing / framing / correlation core

Shallow embedding of the request-signing, WebSocket frame codec, request-id
allocation, correlation table and dispatcher logic of
`src/aiotieba/client.py`, together with proofs of the specification claims.

Bytes are modelled as `Nat` (the source only ever produces values `< 256`
where it matters, and all arithmetic on multi-byte fields is made explicit
with `% 256` / big-endian folds).  Python code that raises a local decode
error is modelled with `Option` (`none` = the call raises).
-/

/-- The external byte-transformation collaborators used by the frame codec:
`gzip.compress(_, 5)` / `gzip.decompress` and the AES-ECB cipher obtained from
`Client.ws_aes_chiper`.  They live outside this repository, so the codec is
parameterised over them; `WsCodecLaws` below records the properties of the
real libraries that the proofs use.  `none` models a raised exception. -/
structure WsCodecOps where
  compress : List Nat → List Nat
  decompress : List Nat → Option (List Nat)
  encrypt : List Nat → List Nat
  decrypt : List Nat → Option (List Nat)

/-- Facts about `gzip` and AES-ECB that the round-trip arguments rely on:
decompression inverts compression, and decryption inverts encryption on
inputs that are a whole number of 16-byte blocks. -/
structure WsCodecLaws (ops : WsCodecOps) : Prop where
  decompress_compress : ∀ b : List Nat, ops.decompress (ops.compress b) = some b
  decrypt_encrypt : ∀ b : List Nat, b.length % 16 = 0 → ops.decrypt (ops.encrypt b) = some b

/-- `n.to_bytes(4, 'big')` for `n < 2^32` (the source raises `OverflowError`
on larger values, which the theorems exclude by hypothesis). -/
def toBytesBE4 (n : Nat) : List Nat :=
  [n / 2 ^ 24 % 256, n / 2 ^ 16 % 256, n / 2 ^ 8 % 256, n % 256]

/-- `int.from_bytes(l, 'big')`. -/
def fromBytesBE (l : List Nat) : Nat :=
  l.foldl (fun acc b => acc * 256 + b) 0

/-- The flag byte built by `Client._pack_ws_bytes`:
`0x08 | (need_gzip << 7) | (need_encrypt << 6)`. -/
def packFlag (need_gzip need_encrypt : Bool) : Nat :=
  0x08 ||| ((if need_gzip then 1 else 0) <<< 7) ||| ((if need_encrypt then 1 else 0) <<< 6)

/-- The payload-processing pipeline of `Client._pack_ws_bytes`
(client.py lines 454-461): optional gzip, then optional
pad-to-block-size-and-encrypt, with `AES.block_size = 16` and pad bytes
`pad_num.to_bytes(1,'big') * pad_num`. -/
def processPayload (ops : WsCodecOps) (ws_bytes : List Nat)
    (need_gzip need_encrypt : Bool) : List Nat :=
  let ws1 := if need_gzip then ops.compress ws_bytes else ws_bytes
  if need_encrypt then
    let pad_num := 16 - ws1.length % 16
    ops.encrypt (ws1 ++ List.replicate pad_num pad_num)
  else ws1

/-- `Client._pack_ws_bytes` (client.py lines 437-472): process the payload,
then prepend the 9-byte header `flag ‖ cmd ‖ req_id`. -/
def pack_ws_bytes (ops : WsCodecOps) (ws_bytes : List Nat) (cmd req_id : Nat)
    (need_gzip need_encrypt : Bool) : List Nat :=
  packFlag need_gzip need_encrypt ::
    (toBytesBE4 cmd ++ toBytesBE4 req_id ++ processPayload ops ws_bytes need_gzip need_encrypt)

/-- Python `ws_bytes[-2:-1]`: the one-byte slice holding the second-to-last
byte, or the empty slice when the input has fewer than two bytes. -/
def pySliceSecondLast (b : List Nat) : List Nat :=
  if 2 ≤ b.length then [b.getD (b.length - 2) 0] else []

/-- Python `b[-1:]`: the one-byte slice holding the last byte, or the empty
slice on empty input. -/
def pySliceLast (b : List Nat) : List Nat :=
  if 1 ≤ b.length then [b.getD (b.length - 1) 0] else []

/-- Python `bytes.rstrip(strip)`: remove the trailing run of bytes whose
values occur in `strip` (an empty `strip` removes nothing). -/
def pyRstrip (b strip : List Nat) : List Nat :=
  (b.reverse.dropWhile (fun x => decide (x ∈ strip))).reverse

/-- Modelled from the spec (claim C5 wording): padding removal that trims
"the trailing run of bytes equal to the last byte of the decrypted
plaintext".  To be compared with the source's `rstrip(ws_bytes[-2:-1])`,
which keys the trim on the second-to-last byte. -/
def specTrimByLastByte (b : List Nat) : List Nat :=
  pyRstrip b (pySliceLast b)

/-- The payload-processing pipeline of `Client._unpack_ws_bytes`
(client.py lines 495-499), applied to the bytes after the 9-byte header.
Note the source tests bit7 (`0b10000000`) for the decrypt-and-strip branch
and bit6 (`0b01000000`) for the decompress branch. -/
def unpackPayload (ops : WsCodecOps) (flag : Nat) (body : List Nat) :
    Option (List Nat) :=
  let step1 : Option (List Nat) :=
    if flag &&& 0b10000000 ≠ 0 then
      match ops.decrypt body with
      | some d => some (pyRstrip d (pySliceSecondLast d))
      | none => none
    else some body
  match step1 with
  | none => none
  | some b1 => if flag &&& 0b01000000 ≠ 0 then ops.decompress b1 else some b1

/-- `Client._unpack_ws_bytes` (client.py lines 474-501).  An input shorter
than 9 bytes is returned unchanged with `cmd = 0`, `req_id = 0`; otherwise
the header fields are read big-endian and the body is run through
`unpackPayload`.  `none` models a raised decode error. -/
def unpack_ws_bytes (ops : WsCodecOps) (b : List Nat) :
    Option (List Nat × Nat × Nat) :=
  if b.length < 9 then some (b, 0, 0)
  else
    match unpackPayload ops (b.headD 0) (b.drop 9) with
    | none => none
    | some payload =>
        some (payload, fromBytesBE ((b.drop 1).take 4), fromBytesBE ((b.drop 5).take 4))

/-- Concrete instantiation of the external collaborators, satisfying
`WsCodecLaws` (see `modelLaws`): compression frames its input between a
two-byte magic prefix and a trailing `0`, encryption shifts every byte up by
one, and decryption rejects inputs that are not a whole number of 16-byte
blocks, exactly as the real AES-ECB decrypt does. -/
def modelOps : WsCodecOps where
  compress b := 31 :: 139 :: (b ++ [0])
  decompress b :=
    match b with
    | 31 :: 139 :: rest => if rest.getLast? = some 0 then some rest.dropLast else none
    | _ => none
  encrypt b := b.map (· + 1)
  decrypt b := if b.length % 16 = 0 then some (b.map (· - 1)) else none

/-- UTF-8 encoding of a string, as naturals (`raw_str.encode('utf-8')`). -/
def utf8Bytes (s : String) : List Nat :=
  s.toUTF8.data.toList.map (fun c => c.toNat)

/-- `Client.pack_form` (client.py lines 358-378), parameterised over the
external `hashlib.md5(...).hexdigest()`: concatenate `f"{k}={v}"` over the
fields in order, append the literal `"tiebaclient!!!"`, join, hash the UTF-8
encoding of the joined string and append the `("sign", digest)` field. -/
def pack_form (md5hex : List Nat → String) (forms : List (String × String)) :
    List (String × String) :=
  let raw_list := forms.map (fun kv => kv.1 ++ "=" ++ kv.2)
  let raw_list := raw_list ++ ["tiebaclient!!!"]
  let raw_str := String.join raw_list
  forms ++ [("sign", md5hex (utf8Bytes raw_str))]

/-- Request-id part of `WebsocketResponse.__init__` (client.py lines 93-99).
`cls` is the value of the class attribute `_websocket_request_id` (`none`
models Python `None`); `now` is `int(time.time())`.  In CPython both
assignments inside `__init__` target `self._websocket_request_id`, which
creates an instance attribute shadowing the class attribute, so the class
attribute is never written; the embedding makes the resulting data flow
explicit and returns (class attribute after the call, allocated `_req_id`). -/
def websocketResponse_init (cls : Option Nat) (now : Nat) : Option Nat × Nat :=
  -- `if self._websocket_request_id is None:` (the lookup falls through to the
  -- class attribute) ... `self._websocket_request_id = self._timestamp - 1`
  let inst : Option Nat := if cls = none then some (now - 1) else none
  -- `self._websocket_request_id += 1` reads the instance attribute if present,
  -- else the class attribute, and writes the instance attribute
  let base : Nat := (inst.orElse (fun _ => cls)).getD 0
  -- the class attribute is returned unchanged: it was never assigned
  (cls, base + 1)

/-- Request ids produced by consecutive `WebsocketResponse()` constructions at
the given clock readings, starting from the pristine class attribute. -/
def allocReqIds (times : List Nat) : List Nat :=
  (times.foldl
    (fun acc now =>
      let r := websocketResponse_init acc.1 now
      (r.1, acc.2 ++ [r.2]))
    ((none : Option Nat), ([] : List Nat))).2

/-- The per-object state a `WebsocketResponse` exposes to the dispatcher:
`_readable_event` (set or not) and `_data`. -/
structure WsResEntry where
  eventSet : Bool
  data : Option (List Nat)
deriving DecidableEq

/-- The wait table `WebsocketResponse.ws_res_wait_dict`, as an association
list keyed by request id. -/
abbrev WsTable := List (Nat × WsResEntry)

def wsLookup : WsTable → Nat → Option WsResEntry
  | [], _ => none
  | (k, e) :: rest, reqId => if k = reqId then some e else wsLookup rest reqId

def wsSet : WsTable → Nat → WsResEntry → WsTable
  | [], _, _ => []
  | (k, e) :: rest, reqId, e' =>
    if k = reqId then (k, e') :: rest else (k, e) :: wsSet rest reqId e'

/-- Python `del` of a wait-table entry. -/
def wsErase (tbl : WsTable) (reqId : Nat) : WsTable :=
  tbl.filter (fun kv => kv.1 ≠ reqId)

/-- Frame delivery inside `Client._ws_dispatch` (client.py lines 577-580):
`ws_res_wait_dict.get(req_id, None)`; if found, store the payload in `_data`
and set `_readable_event`; a missing id is silently ignored. -/
def ws_dispatch_complete (tbl : WsTable) (reqId : Nat) (data : List Nat) : WsTable :=
  match wsLookup tbl reqId with
  | none => tbl
  | some _ => wsSet tbl reqId ⟨true, some data⟩

/-- How a `_ws_dispatch` run terminates. -/
inductive DispatchExit
  | cancelled
  | uncaughtError
deriving DecidableEq

/-- `Client._ws_dispatch` (client.py lines 567-583): the receive / decode /
complete loop.  `frames` are the messages received before the task is
cancelled; the `try`/`except` around the loop catches only
`asyncio.CancelledError`, so a frame whose decode raises terminates the run
with the error uncaught. -/
def ws_dispatch_run (ops : WsCodecOps) (tbl : WsTable) :
    List (List Nat) → WsTable × DispatchExit
  | [] => (tbl, DispatchExit.cancelled)
  | f :: fs =>
    match unpack_ws_bytes ops f with
    | none => (tbl, DispatchExit.uncaughtError)
    | some (data, _, reqId) => ws_dispatch_run ops (ws_dispatch_complete tbl reqId data) fs

/-- Terminal state of `WebsocketResponse.read`: either `asyncio.TimeoutError`
was raised, or the stored data was returned. -/
inductive ReadOutcome
  | timedOut
  | completed (data : List Nat)
deriving DecidableEq

/-- Joint state of the wait table and one pending `read` call (`none` while
the read is still blocked). -/
structure PendingRun where
  table : WsTable
  result : Option ReadOutcome
deriving DecidableEq

/-- The events that can touch the pending request `r` under the cooperative
scheduler. -/
inductive ReqAction
  | deliver (reqId : Nat) (data : List Nat)
  | wake
  | timeoutFire
deriving DecidableEq

/-- One scheduler step in the life of the pending request `r`.
`deliver reqId d` is the dispatcher processing an inbound frame
(client.py lines 577-580); `wake` is `read`'s resume path after the readable
event is set — `del ws_res_wait_dict[req_id]; return self._data`
(lines 139-140); `timeoutFire` is `asyncio.wait_for` expiring while the
event is still unset, upon which `read` deletes its entry and re-raises
`asyncio.TimeoutError` (lines 134-137). -/
def readStep (r : Nat) (s : PendingRun) : ReqAction → PendingRun
  | ReqAction.deliver reqId d => { s with table := ws_dispatch_complete s.table reqId d }
  | ReqAction.wake =>
    if s.result = none then
      match wsLookup s.table r with
      | some e =>
        if e.eventSet then
          { table := wsErase s.table r,
            result := some (ReadOutcome.completed (e.data.getD [])) }
        else s
      | none => s
    else s
  | ReqAction.timeoutFire =>
    if s.result = none then
      match wsLookup s.table r with
      | some e =>
        if e.eventSet then s
        else { table := wsErase s.table r, result := some ReadOutcome.timedOut }
      | none => s
    else s

/-- The state right after `WebsocketResponse.__init__` for request `r`:
registered in the wait table with the event unset, no data, read unresolved. -/
def initPending (r : Nat) : PendingRun :=
  { table := [(r, ⟨false, none⟩)], result := none }

def runPending (r : Nat) (s : PendingRun) (acts : List ReqAction) : PendingRun :=
  acts.foldl (readStep r) s

/-- The `Exception` subclasses that can arise inside `_init_websocket`'s
`try` block (all caught by its `except Exception`; `asyncio.CancelledError`
is a `BaseException` and out of scope of the claim). -/
inductive PyExc
  | timeoutError
  | valueError
  | connectionError
deriving DecidableEq

/-- `Client._init_websocket` (client.py lines 585-627).  `available` is
`is_ws_aviliable`; `createOk` the boolean result of `_create_websocket`
(which returns `False` instead of raising); `reply` the outcome of sending
the handshake frame and reading the correlated reply within 5 seconds
(`Except.error` = a raised timeout / connection error, `Except.ok errorno` =
the parsed reply status).  A nonzero status raises `ValueError`, and the
surrounding `except Exception` turns any raised error into `return False`. -/
def init_websocket (available createOk : Bool) (reply : Except PyExc Nat) :
    Except PyExc Bool :=
  if available then Except.ok true
  else
    let tryBody : Except PyExc Bool :=
      if !createOk then Except.ok false
      else
        match reply with
        | Except.error exc => Except.error exc
        | Except.ok errorno =>
          if errorno ≠ 0 then Except.error PyExc.valueError else Except.ok true
    match tryBody with
    | Except.ok b => Except.ok b
    | Except.error _ => Except.ok false

/-- Externally visible effects of `Client.send_ws_bytes`. -/
inductive SendAction
  | tableInsert (reqId : Nat)
  | socketWrite (frame : List Nat)
deriving DecidableEq

/-- `Client.send_ws_bytes` (client.py lines 543-565) as the ordered trace of
its effects on the wait table and the socket, together with the allocated
request id: `WebsocketResponse()` registers itself in `ws_res_wait_dict`
during `__init__` (line 103); `send_ws_bytes` stores it again under its
request id (line 562) and only then awaits `websocket.send_bytes`
(line 563). -/
def send_ws_bytes_trace (ops : WsCodecOps) (cls : Option Nat) (now : Nat)
    (ws_bytes : List Nat) (cmd : Nat) (need_gzip need_encrypt : Bool) :
    List SendAction × Nat :=
  let reqId := (websocketResponse_init cls now).2
  let frame := pack_ws_bytes ops ws_bytes cmd reqId need_gzip need_encrypt
  ([SendAction.tableInsert reqId, SendAction.tableInsert reqId,
    SendAction.socketWrite frame], reqId)

theorem modelLaws : WsCodecLaws modelOps := by
  constructor
  · intro b
    simp [modelOps]
  · intro b hb
    simp only [modelOps, List.length_map, hb, if_pos rfl, List.map_map, Option.some.injEq]
    have : ((fun x => x - 1) ∘ fun x : Nat => x + 1) = id := by
      funext x; simp
    simp [this]

theorem fromBytesBE_toBytesBE4 (n : Nat) (h : n < 2 ^ 32) :
    fromBytesBE (toBytesBE4 n) = n := by
  simp only [toBytesBE4, fromBytesBE, List.foldl]
  omega

theorem toBytesBE4_length (n : Nat) : (toBytesBE4 n).length = 4 := by
  simp [toBytesBE4]

theorem packFlag_ff : packFlag false false = 8 := by decide

theorem packFlag_tf : packFlag true false = 136 := by decide

theorem packFlag_ft : packFlag false true = 72 := by decide

theorem packFlag_tt : packFlag true true = 200 := by decide

theorem cons_header_slices (fl : Nat) (c4 i4 body : List Nat)
    (hc : c4.length = 4) (hi : i4.length = 4) :
    ((fl :: (c4 ++ i4 ++ body)).drop 1).take 4 = c4
    ∧ ((fl :: (c4 ++ i4 ++ body)).drop 5).take 4 = i4
    ∧ (fl :: (c4 ++ i4 ++ body)).drop 9 = body
    ∧ (fl :: (c4 ++ i4 ++ body)).length = 9 + body.length := by
  refine ⟨?_, ?_, ?_, ?_⟩
  · rw [List.drop_succ_cons, List.drop_zero, List.append_assoc, ← hc, List.take_left]
  · rw [List.drop_succ_cons, List.append_assoc, ← hc, List.drop_left, hc, ← hi, List.take_left]
  · rw [List.drop_succ_cons]
    have hlen8 : (c4 ++ i4).length = 8 := by simp [hc, hi]
    rw [← hlen8, List.drop_left]
  · simp [hc, hi]
    omega

theorem unpack_header (ops : WsCodecOps) (fl : Nat) (c4 i4 body : List Nat)
    (hc : c4.length = 4) (hi : i4.length = 4) :
    unpack_ws_bytes ops (fl :: (c4 ++ i4 ++ body)) =
      match unpackPayload ops fl body with
      | none => none
      | some payload => some (payload, fromBytesBE c4, fromBytesBE i4) := by
  obtain ⟨h1, h5, h9, hlen⟩ := cons_header_slices fl c4 i4 body hc hi
  unfold unpack_ws_bytes
  rw [if_neg (by omega), h1, h5, h9, List.headD_cons]

theorem unpackPayload_8 (ops : WsCodecOps) (body : List Nat) :
    unpackPayload ops 8 body = some body := by
  have h7 : (8 : Nat) &&& 128 = 0 := by decide
  have h6 : (8 : Nat) &&& 64 = 0 := by decide
  simp [unpackPayload, h7, h6]

theorem unpackPayload_72 (ops : WsCodecOps) (body : List Nat) :
    unpackPayload ops 72 body = ops.decompress body := by
  have h7 : (72 : Nat) &&& 128 = 0 := by decide
  have h6 : (72 : Nat) &&& 64 = 64 := by decide
  simp [unpackPayload, h7, h6]

theorem unpackPayload_136 (ops : WsCodecOps) (body : List Nat) :
    unpackPayload ops 136 body =
      match ops.decrypt body with
      | none => none
      | some d => some (pyRstrip d (pySliceSecondLast d)) := by
  have h7 : (136 : Nat) &&& 128 = 128 := by decide
  have h6 : (136 : Nat) &&& 64 = 0 := by decide
  cases hd : ops.decrypt body <;> simp [unpackPayload, h7, h6, hd]

theorem unpackPayload_200 (ops : WsCodecOps) (body : List Nat) :
    unpackPayload ops 200 body =
      match ops.decrypt body with
      | none => none
      | some d => ops.decompress (pyRstrip d (pySliceSecondLast d)) := by
  have h7 : (200 : Nat) &&& 128 = 128 := by decide
  have h6 : (200 : Nat) &&& 64 = 64 := by decide
  cases hd : ops.decrypt body <;> simp [unpackPayload, h7, h6, hd]

theorem getD_append_self_length (l r : List Nat) (d : Nat) :
    (l ++ r).getD l.length d = r.getD 0 d := by
  induction l with
  | nil => rfl
  | cons a t ih => simpa using ih

theorem pySliceSecondLast_append_pair (l : List Nat) (a b : Nat) :
    pySliceSecondLast (l ++ [a, b]) = [a] := by
  unfold pySliceSecondLast
  rw [if_pos (by simp)]
  have hlen : (l ++ [a, b]).length - 2 = l.length := by simp
  rw [hlen, getD_append_self_length]
  rfl

theorem dropWhile_mem_replicate (n a : Nat) (t : List Nat) :
    List.dropWhile (fun x => decide (x ∈ [a])) (List.replicate n a ++ t)
      = List.dropWhile (fun x => decide (x ∈ [a])) t := by
  induction n with
  | zero => rfl
  | succ k ih => simp [List.replicate_succ, List.dropWhile_cons, ih]

/-- The decoder's padding removal (`rstrip` keyed on the second-to-last byte)
recovers `z` from `z ++ replicate n n` whenever at least two pad bytes were
appended and `z` itself does not end in the pad value. -/
theorem strip_pad (z : List Nat) (n : Nat) (h2 : 2 ≤ n)
    (hlast : z.getLast? ≠ some n) :
    pyRstrip (z ++ List.replicate n n) (pySliceSecondLast (z ++ List.replicate n n)) = z := by
  obtain ⟨k, rfl⟩ : ∃ k, n = k + 2 := ⟨n - 2, by omega⟩
  have hrep : List.replicate (k + 2) (k + 2) =
      List.replicate k (k + 2) ++ [k + 2, k + 2] := by
    rw [List.replicate_succ' (k + 1), List.replicate_succ' k]
    simp
  have hslice : pySliceSecondLast (z ++ List.replicate (k + 2) (k + 2)) = [k + 2] := by
    rw [hrep, ← List.append_assoc]
    exact pySliceSecondLast_append_pair _ _ _
  rw [hslice]
  unfold pyRstrip
  rw [List.reverse_append, List.reverse_replicate, dropWhile_mem_replicate]
  have hdw : List.dropWhile (fun x => decide (x ∈ [k + 2])) z.reverse = z.reverse := by
    cases hz : z.reverse with
    | nil => rfl
    | cons h t =>
      have hh : h ≠ k + 2 := by
        intro he
        apply hlast
        rw [← List.head?_reverse, hz, he]
        rfl
      simp [List.dropWhile_cons, hh]
  rw [hdw, List.reverse_reverse]

/-- C1 (counterexample): the claim "for every payload, cmd, request id and
every combination of the gzip/encrypt flags, `_unpack_ws_bytes` inverts
`_pack_ws_bytes`" is false.  `_unpack_ws_bytes` selects decryption by bit7
(the bit `_pack_ws_bytes` uses for gzip) and decompression by bit6 (the bit
used for encrypt), so a gzip-only frame is fed to the AES decrypt, which
rejects its length; and with both flags set, a compressed payload whose
length is 15 mod 16 receives a single pad byte that the
second-to-last-byte `rstrip` cannot remove.  Both failures are exhibited on
an instantiation of the external collaborators satisfying `WsCodecLaws`. -/
theorem C1_roundtrip_counterexample :
    WsCodecLaws modelOps
    ∧ unpack_ws_bytes modelOps (pack_ws_bytes modelOps [] 0 0 true false) ≠ some ([], 0, 0)
    ∧ unpack_ws_bytes modelOps
        (pack_ws_bytes modelOps (List.replicate 12 0) 0 0 true true)
        ≠ some (List.replicate 12 0, 0, 0) :=
  ⟨modelLaws, by decide, by decide⟩

/-- C1 (amended): decoding inverts encoding when the gzip and encrypt flags
are equal: always when both are false, and when both are true provided the
compressed payload takes at least two pad bytes (its length mod 16 is not
15) and does not itself end in the pad value.  (With mixed flags the decoder
applies the wrong inverse operations, see the counterexample.) -/
theorem C1_roundtrip_amended (ops : WsCodecOps) (laws : WsCodecLaws ops)
    (payload : List Nat) (cmd req_id : Nat)
    (hc : cmd < 2 ^ 32) (hi : req_id < 2 ^ 32) :
    unpack_ws_bytes ops (pack_ws_bytes ops payload cmd req_id false false)
      = some (payload, cmd, req_id)
    ∧ (2 ≤ 16 - (ops.compress payload).length % 16 →
        (ops.compress payload).getLast? ≠ some (16 - (ops.compress payload).length % 16) →
        unpack_ws_bytes ops (pack_ws_bytes ops payload cmd req_id true true)
          = some (payload, cmd, req_id)) := by
  constructor
  · have hbody : processPayload ops payload false false = payload := rfl
    rw [pack_ws_bytes, packFlag_ff, hbody,
      unpack_header ops 8 _ _ _ (toBytesBE4_length cmd) (toBytesBE4_length req_id),
      unpackPayload_8, fromBytesBE_toBytesBE4 cmd hc, fromBytesBE_toBytesBE4 req_id hi]
  · intro hpad hlast
    set z := ops.compress payload with hz
    set n := 16 - z.length % 16 with hn
    have hbody : processPayload ops payload true true
        = ops.encrypt (z ++ List.replicate n n) := rfl
    rw [pack_ws_bytes, packFlag_tt, hbody,
      unpack_header ops 200 _ _ _ (toBytesBE4_length cmd) (toBytesBE4_length req_id),
      unpackPayload_200]
    have hblock : (z ++ List.replicate n n).length % 16 = 0 := by
      simp only [List.length_append, List.length_replicate]
      omega
    rw [laws.decrypt_encrypt _ hblock]
    simp only [strip_pad z n hpad hlast, hz, laws.decompress_compress payload,
      fromBytesBE_toBytesBE4 cmd hc, fromBytesBE_toBytesBE4 req_id hi]

/-- Witness for `C1_roundtrip_amended`: all hypotheses hold at the model
collaborators with payload `[5]`, cmd 5, request id 42, in both the
plain and the gzip+encrypt configuration. -/
theorem C1_roundtrip_witness :
    WsCodecLaws modelOps ∧ (5 : Nat) < 2 ^ 32 ∧ (42 : Nat) < 2 ^ 32
    ∧ unpack_ws_bytes modelOps (pack_ws_bytes modelOps [5] 5 42 false false)
        = some ([5], 5, 42)
    ∧ unpack_ws_bytes modelOps (pack_ws_bytes modelOps [5] 5 42 true true)
        = some ([5], 5, 42) := by
  have h := C1_roundtrip_amended modelOps modelLaws [5] 5 42 (by decide) (by decide)
  exact ⟨modelLaws, by decide, by decide, h.1, h.2 (by decide) (by decide)⟩

/-- C5 (counterexample): the decoder does not trim by the last byte of the
decrypted plaintext; it trims by the second-to-last byte
(`ws_bytes.rstrip(ws_bytes[-2:-1])`).  On a frame whose decrypted plaintext
is 15 bytes of 7 followed by a lone pad byte 1, the code's decode returns
the plaintext unshortened, while the behaviour the claim describes would
strip the pad byte. -/
theorem C5_padding_counterexample :
    unpack_ws_bytes modelOps
        ((136 : Nat) :: (toBytesBE4 3 ++ toBytesBE4 9
          ++ modelOps.encrypt (List.replicate 15 7 ++ [1])))
      = some (List.replicate 15 7 ++ [1], 3, 9)
    ∧ specTrimByLastByte (List.replicate 15 7 ++ [1]) = List.replicate 15 7
    ∧ List.replicate 15 7 ++ [1] ≠ List.replicate 15 7 :=
  ⟨by decide, by decide, by decide⟩

/-- C5 (amended): encoding with encryption pads the payload with N bytes of
value N (N = 16 - len % 16), making the plaintext a whole number of AES
blocks; decoding a frame that the decoder treats as encrypted (flag bit7
set) removes padding by trimming the trailing run of bytes equal to the
SECOND-to-last byte of the decrypted plaintext — which agrees with the
claimed last-byte rule whenever N ≥ 2, but not for a lone pad byte. -/
theorem C5_padding_amended (ops : WsCodecOps) (payload : List Nat) (cmd req_id : Nat)
    (hc : cmd < 2 ^ 32) (hi : req_id < 2 ^ 32) :
    pack_ws_bytes ops payload cmd req_id false true
      = 72 :: (toBytesBE4 cmd ++ toBytesBE4 req_id
          ++ ops.encrypt (payload ++ List.replicate (16 - payload.length % 16)
                (16 - payload.length % 16)))
    ∧ (payload ++ List.replicate (16 - payload.length % 16)
          (16 - payload.length % 16)).length % 16 = 0
    ∧ (∀ body d, ops.decrypt body = some d →
        unpack_ws_bytes ops ((136 : Nat) :: (toBytesBE4 cmd ++ toBytesBE4 req_id ++ body))
          = some (pyRstrip d (pySliceSecondLast d), cmd, req_id)) := by
  refine ⟨?_, ?_, ?_⟩
  · rw [pack_ws_bytes.eq_def, packFlag_ft]
    rfl
  · simp only [List.length_append, List.length_replicate]
    omega
  · intro body d hd
    rw [unpack_header ops 136 _ _ _ (toBytesBE4_length cmd) (toBytesBE4_length req_id),
      unpackPayload_136, hd, fromBytesBE_toBytesBE4 cmd hc, fromBytesBE_toBytesBE4 req_id hi]

/-- Witness for `C5_padding_amended` at concrete inputs. -/
theorem C5_padding_witness :
    (3 : Nat) < 2 ^ 32 ∧ (4 : Nat) < 2 ^ 32
    ∧ modelOps.decrypt (modelOps.encrypt (List.replicate 16 5)) = some (List.replicate 16 5)
    ∧ unpack_ws_bytes modelOps ((136 : Nat) :: (toBytesBE4 3 ++ toBytesBE4 4
        ++ modelOps.encrypt (List.replicate 16 5)))
      = some (pyRstrip (List.replicate 16 5) (pySliceSecondLast (List.replicate 16 5)), 3, 4) := by
  refine ⟨by decide, by decide, by decide, ?_⟩
  exact (C5_padding_amended modelOps [1, 2] 3 4 (by decide) (by decide)).2.2
    (modelOps.encrypt (List.replicate 16 5)) (List.replicate 16 5) (by decide)

/-- C8: decoding any input shorter than 9 bytes returns the input unchanged
with cmd = 0 and request id 0, and raises no error. -/
theorem C8_short_frame (ops : WsCodecOps) (b : List Nat) (h : b.length < 9) :
    unpack_ws_bytes ops b = some (b, 0, 0) := by
  unfold unpack_ws_bytes
  rw [if_pos h]

/-- Witness for `C8_short_frame`. -/
theorem C8_short_frame_witness :
    ([1, 2, 3] : List Nat).length < 9
    ∧ unpack_ws_bytes modelOps [1, 2, 3] = some ([1, 2, 3], 0, 0) :=
  ⟨by decide, C8_short_frame modelOps [1, 2, 3] (by decide)⟩

/-- C9: encoding `b"hello"` with cmd 1001, request id 42 and both flags off
yields `b'\x08' + (1001).to_bytes(4,'big') + (42).to_bytes(4,'big') +
b"hello"`; and in general the first byte of an encoded frame has bit3 set,
bit6 equal to the encrypt flag and bit7 equal to the gzip flag, followed by
cmd and request id as 4-byte big-endian integers and then the processed
payload. -/
theorem C9_pack_layout (ops : WsCodecOps) (payload : List Nat) (cmd req_id : Nat)
    (g e : Bool) (hc : cmd < 2 ^ 32) (hi : req_id < 2 ^ 32) :
    pack_ws_bytes modelOps [104, 101, 108, 108, 111] 1001 42 false false
      = 8 :: (toBytesBE4 1001 ++ toBytesBE4 42 ++ [104, 101, 108, 108, 111])
    ∧ (pack_ws_bytes ops payload cmd req_id g e).headD 0 = packFlag g e
    ∧ (packFlag g e).testBit 3 = true
    ∧ (packFlag g e).testBit 6 = e
    ∧ (packFlag g e).testBit 7 = g
    ∧ fromBytesBE (((pack_ws_bytes ops payload cmd req_id g e).drop 1).take 4) = cmd
    ∧ fromBytesBE (((pack_ws_bytes ops payload cmd req_id g e).drop 5).take 4) = req_id
    ∧ (pack_ws_bytes ops payload cmd req_id g e).drop 9 = processPayload ops payload g e := by
  obtain ⟨h1, h5, h9, hlen⟩ := cons_header_slices (packFlag g e) (toBytesBE4 cmd)
    (toBytesBE4 req_id) (processPayload ops payload g e)
    (toBytesBE4_length cmd) (toBytesBE4_length req_id)
  refine ⟨by decide, rfl, ?_, ?_, ?_, ?_, ?_, ?_⟩
  · cases g <;> cases e <;> decide
  · cases g <;> cases e <;> decide
  · cases g <;> cases e <;> decide
  · rw [pack_ws_bytes.eq_def, h1, fromBytesBE_toBytesBE4 cmd hc]
  · rw [pack_ws_bytes.eq_def, h5, fromBytesBE_toBytesBE4 req_id hi]
  · rw [pack_ws_bytes.eq_def, h9]

/-- Witness for `C9_pack_layout` at concrete inputs. -/
theorem C9_pack_layout_witness :
    (7 : Nat) < 2 ^ 32 ∧ (9 : Nat) < 2 ^ 32
    ∧ (pack_ws_bytes modelOps [1] 7 9 true false).headD 0 = packFlag true false
    ∧ fromBytesBE (((pack_ws_bytes modelOps [1] 7 9 true false).drop 1).take 4) = 7
    ∧ (pack_ws_bytes modelOps [1] 7 9 true false).drop 9
        = processPayload modelOps [1] true false := by
  have h := C9_pack_layout modelOps [1] 7 9 true false (by decide) (by decide)
  exact ⟨by decide, by decide, h.2.1, h.2.2.2.2.2.1, h.2.2.2.2.2.2.2⟩

theorem join_concat (l : List String) (s : String) :
    String.join (l ++ [s]) = String.join l ++ s := by
  simp [String.join, List.foldl_append]

/-- C6: signing returns the input fields in order with exactly one field
`("sign", digest)` appended, where the digest input is the concatenation of
`"{name}={value}"` over the fields in input order followed by the literal
`"tiebaclient!!!"`, hashed over its UTF-8 encoding; in particular
`sign [("a","1"),("b","2")]` appends
`("sign", md5(utf8 "a=1b=2tiebaclient!!!"))`. -/
theorem C6_pack_form_sign (md5hex : List Nat → String) (forms : List (String × String)) :
    pack_form md5hex forms
      = forms ++ [("sign",
          md5hex (utf8Bytes (String.join (forms.map fun kv => kv.1 ++ "=" ++ kv.2)
            ++ "tiebaclient!!!")))]
    ∧ (pack_form md5hex forms).length = forms.length + 1
    ∧ (pack_form md5hex forms).take forms.length = forms
    ∧ pack_form md5hex [("a", "1"), ("b", "2")]
        = [("a", "1"), ("b", "2"), ("sign", md5hex (utf8Bytes "a=1b=2tiebaclient!!!"))] := by
  refine ⟨?_, by simp [pack_form], by simp [pack_form], rfl⟩
  simp only [pack_form]
  rw [join_concat]

/-- C2 (the code contradicts the claim and its own docstring, which calls
`_req_id` "the unique request id"): the counter updates in
`WebsocketResponse.__init__` write an instance attribute and never the class
attribute, so the class-level counter never advances and every construction
allocates `req_id = int(time.time())`.  Two registrations within the same
clock second receive the SAME id; ids merely track the clock rather than a
monotonically increasing counter.  Evaluated at the failing input: two
constructions at Unix time 1700000000. -/
theorem C2_request_id_collision :
    allocReqIds [1700000000, 1700000000] = [1700000000, 1700000000]
    ∧ ¬ List.Pairwise (fun a b => a ≠ b) (allocReqIds [1700000000, 1700000000])
    ∧ allocReqIds [1700000000, 1700000005] = [1700000000, 1700000005] :=
  ⟨by decide, by decide, by decide⟩

/-- C3 (counterexample): the claim that the transport-side caller of decode
catches local decode errors and converts them into a failed send is false:
the `try`/`except` in `_ws_dispatch` catches only `asyncio.CancelledError`,
so a frame whose body the AES decrypt rejects terminates the dispatcher with
the decode error uncaught. -/
theorem C3_decode_error_counterexample :
    unpack_ws_bytes modelOps [136, 0, 0, 0, 0, 0, 0, 0, 0, 1, 2, 3] = none
    ∧ ws_dispatch_run modelOps [] [[136, 0, 0, 0, 0, 0, 0, 0, 0, 1, 2, 3]]
        = ([], DispatchExit.uncaughtError) :=
  ⟨by decide, by decide⟩

/-- C3 (amended): a local decode error raised while dispatching an inbound
frame is NOT caught (the dispatcher handles only cancellation): it escapes
the dispatch loop, terminating the dispatcher task with the wait table
untouched, and every waiting request is left to time out on its own. -/
theorem C3_decode_error_amended (ops : WsCodecOps) (tbl : WsTable)
    (f : List Nat) (fs : List (List Nat)) (h : unpack_ws_bytes ops f = none) :
    ws_dispatch_run ops tbl (f :: fs) = (tbl, DispatchExit.uncaughtError) := by
  simp only [ws_dispatch_run, h]

/-- Witness for `C3_decode_error_amended`. -/
theorem C3_decode_error_witness :
    unpack_ws_bytes modelOps [136, 1, 1, 1, 1, 1, 1, 1, 1, 2, 2, 2] = none
    ∧ ws_dispatch_run modelOps [(5, ⟨false, none⟩)] [[136, 1, 1, 1, 1, 1, 1, 1, 1, 2, 2, 2]]
        = ([(5, ⟨false, none⟩)], DispatchExit.uncaughtError) :=
  ⟨by decide, C3_decode_error_amended modelOps [(5, ⟨false, none⟩)]
    [136, 1, 1, 1, 1, 1, 1, 1, 1, 2, 2, 2] [] (by decide)⟩

theorem wsLookup_wsSet_isSome (tbl : WsTable) (i k : Nat) (e' : WsResEntry) :
    (wsLookup (wsSet tbl i e') k).isSome = (wsLookup tbl k).isSome := by
  induction tbl with
  | nil => rfl
  | cons kv rest ih =>
    obtain ⟨k0, e0⟩ := kv
    by_cases hki : k0 = i
    · subst hki
      by_cases hkk : k0 = k
      · subst hkk
        simp [wsSet, wsLookup]
      · simp [wsSet, wsLookup, hkk]
    · by_cases hkk : k0 = k
      · subst hkk
        simp [wsSet, wsLookup, hki]
      · simp [wsSet, wsLookup, hki, hkk, ih]

theorem wsLookup_dispatch_complete_isSome (tbl : WsTable) (i : Nat) (d : List Nat)
    (k : Nat) :
    (wsLookup (ws_dispatch_complete tbl i d) k).isSome = (wsLookup tbl k).isSome := by
  unfold ws_dispatch_complete
  cases hl : wsLookup tbl i with
  | none => rfl
  | some e => exact wsLookup_wsSet_isSome tbl i k ⟨true, some d⟩

theorem wsLookup_wsErase_self (tbl : WsTable) (r : Nat) :
    wsLookup (wsErase tbl r) r = none := by
  induction tbl with
  | nil => rfl
  | cons kv rest ih =>
    obtain ⟨k0, e0⟩ := kv
    by_cases h : k0 = r
    · simpa [wsErase, List.filter_cons, h] using ih
    · simpa [wsErase, List.filter_cons, h, wsLookup] using ih

theorem readStep_result_mono (r : Nat) (s : PendingRun) (a : ReqAction)
    (h : s.result ≠ none) : (readStep r s a).result = s.result := by
  cases a with
  | deliver reqId d => rfl
  | wake => simp [readStep, h]
  | timeoutFire => simp [readStep, h]

theorem readStep_invariant (r : Nat) (s : PendingRun) (a : ReqAction)
    (h : s.result = none ↔ (wsLookup s.table r).isSome) :
    ((readStep r s a).result = none ↔ (wsLookup (readStep r s a).table r).isSome) := by
  cases a with
  | deliver i d =>
    simpa [readStep, wsLookup_dispatch_complete_isSome] using h
  | wake =>
    by_cases hr : s.result = none
    · have hsome : (wsLookup s.table r).isSome := h.mp hr
      obtain ⟨e, he⟩ := Option.isSome_iff_exists.mp hsome
      by_cases hev : e.eventSet
      · simp [readStep, hr, he, hev, wsLookup_wsErase_self]
      · simp [readStep, hr, he, hev, h]
    · have hstep : readStep r s ReqAction.wake = s := by simp [readStep, hr]
      rw [hstep]; exact h
  | timeoutFire =>
    by_cases hr : s.result = none
    · have hsome : (wsLookup s.table r).isSome := h.mp hr
      obtain ⟨e, he⟩ := Option.isSome_iff_exists.mp hsome
      by_cases hev : e.eventSet
      · simp [readStep, hr, he, hev, h]
      · simp [readStep, hr, he, hev, wsLookup_wsErase_self]
    · have hstep : readStep r s ReqAction.timeoutFire = s := by simp [readStep, hr]
      rw [hstep]; exact h

theorem runPending_inv_aux (r : Nat) (acts : List ReqAction) :
    ∀ s : PendingRun, (s.result = none ↔ (wsLookup s.table r).isSome) →
      ((runPending r s acts).result = none
        ↔ (wsLookup (runPending r s acts).table r).isSome) := by
  induction acts with
  | nil => intro s hs; exact hs
  | cons a as ih => intro s hs; exact ih (readStep r s a) (readStep_invariant r s a hs)

theorem runPending_result_stable (r : Nat) (more : List ReqAction) :
    ∀ s : PendingRun, s.result ≠ none → (runPending r s more).result = s.result := by
  induction more with
  | nil => intro s _; rfl
  | cons a as ih =>
    intro s hs
    have hstep := readStep_result_mono r s a hs
    have : (readStep r s a).result ≠ none := by rw [hstep]; exact hs
    calc (runPending r (readStep r s a) as).result
        = (readStep r s a).result := ih (readStep r s a) this
      _ = s.result := hstep

/-- C4: for a pending request `r` (registered on creation), under every
interleaving of dispatcher deliveries, read wake-ups and timeout expiry:
the entry is in the wait table exactly while the read is unresolved (so it
is removed exactly once, by whichever of completion wake-up / timeout
happens first); once resolved, the terminal state never changes; and a
delivery for a request id not in the table leaves the state entirely
unchanged — silently dropped, never an error. -/
theorem C4_at_most_one_completion (r : Nat) (acts : List ReqAction) (s : PendingRun)
    (hs : s = runPending r (initPending r) acts) :
    (s.result = none ↔ (wsLookup s.table r).isSome)
    ∧ (∀ more, s.result ≠ none → (runPending r s more).result = s.result)
    ∧ (∀ i d, wsLookup s.table i = none → readStep r s (ReqAction.deliver i d) = s) := by
  subst hs
  refine ⟨runPending_inv_aux r acts (initPending r) (by simp [initPending, wsLookup]),
    fun more h => runPending_result_stable r more _ h, ?_⟩
  intro i d hl
  simp [readStep, ws_dispatch_complete, hl]

/-- Witness for `C4_at_most_one_completion`: request 1 times out; afterwards
a late delivery for it is dropped and the timeout outcome is stable. -/
theorem C4_at_most_one_completion_witness :
    ((runPending 1 (initPending 1) [ReqAction.timeoutFire]).result = none
      ↔ (wsLookup (runPending 1 (initPending 1) [ReqAction.timeoutFire]).table 1).isSome)
    ∧ (runPending 1 (runPending 1 (initPending 1) [ReqAction.timeoutFire])
        [ReqAction.deliver 1 [7], ReqAction.wake]).result
        = (runPending 1 (initPending 1) [ReqAction.timeoutFire]).result
    ∧ readStep 1 (runPending 1 (initPending 1) [ReqAction.timeoutFire])
        (ReqAction.deliver 2 [9])
        = runPending 1 (initPending 1) [ReqAction.timeoutFire] := by
  obtain ⟨h1, h2, h3⟩ := C4_at_most_one_completion 1 [ReqAction.timeoutFire] _ rfl
  exact ⟨h1, h2 [ReqAction.deliver 1 [7], ReqAction.wake] (by decide), h3 2 [9] (by decide)⟩

/-- C7: `_init_websocket` always resolves to a boolean and never lets an
exception escape: every raised error inside its `try` (connection failure,
the 5-second read timeout, the `ValueError` raised on a nonzero reply
status) is caught by `except Exception` and becomes `False`; a failed
`_create_websocket` yields `False`; a zero reply status yields `True`; and
when the socket is already available it returns `True` without a handshake. -/
theorem C7_init_websocket_total (available createOk : Bool) (reply : Except PyExc Nat)
    (errorno : Nat) (exc : PyExc) :
    (∃ b, init_websocket available createOk reply = Except.ok b)
    ∧ init_websocket true createOk reply = Except.ok true
    ∧ init_websocket false false reply = Except.ok false
    ∧ init_websocket false true (Except.error exc) = Except.ok false
    ∧ init_websocket false true (Except.ok errorno) = Except.ok (decide (errorno = 0)) := by
  refine ⟨?_, rfl, rfl, rfl, ?_⟩
  · cases available
    · cases createOk
      · exact ⟨false, rfl⟩
      · cases reply with
        | error e => exact ⟨false, rfl⟩
        | ok n =>
          by_cases hn : n = 0
          · subst hn
            exact ⟨true, rfl⟩
          · exact ⟨false, by simp [init_websocket, hn]⟩
    · exact ⟨true, rfl⟩
  · by_cases hn : errorno = 0
    · subst hn
      rfl
    · simp [init_websocket, hn]

/-- C10: in the effect trace of `send_ws_bytes`, an insertion of the freshly
allocated request id into the wait table precedes every write of the encoded
frame to the socket, so an inbound reply arriving after the write finds a
registered waiter. -/
theorem C10_insert_before_write (ops : WsCodecOps) (cls : Option Nat) (now : Nat)
    (ws_bytes : List Nat) (cmd : Nat) (g e : Bool)
    (pre post : List SendAction) (f : List Nat)
    (h : (send_ws_bytes_trace ops cls now ws_bytes cmd g e).1
        = pre ++ SendAction.socketWrite f :: post) :
    SendAction.tableInsert (send_ws_bytes_trace ops cls now ws_bytes cmd g e).2 ∈ pre := by
  rcases pre with _ | ⟨a, _ | ⟨b, _ | ⟨c, rest⟩⟩⟩
  · simp [send_ws_bytes_trace] at h
  · simp [send_ws_bytes_trace] at h
  · simp only [send_ws_bytes_trace, List.cons_append, List.nil_append,
      List.cons.injEq] at h ⊢
    rw [← h.1]
    simp
  · have hl := congrArg List.length h
    simp only [send_ws_bytes_trace, List.length_append, List.length_cons,
      List.length_nil] at hl
    omega

/-- Witness for `C10_insert_before_write` at concrete inputs. -/
theorem C10_insert_before_write_witness :
    (send_ws_bytes_trace modelOps none 100 [] 0 false false).1
      = [SendAction.tableInsert 100, SendAction.tableInsert 100]
        ++ SendAction.socketWrite (pack_ws_bytes modelOps [] 0 100 false false) :: []
    ∧ SendAction.tableInsert (send_ws_bytes_trace modelOps none 100 [] 0 false false).2
        ∈ [SendAction.tableInsert 100, SendAction.tableInsert 100] := by
  refine ⟨by decide, ?_⟩
  exact C10_insert_before_write modelOps none 100 [] 0 false false
    [SendAction.tableInsert 100, SendAction.tableInsert 100]
    [] (pack_ws_bytes modelOps [] 0 100 false false) (by decide)
